import Mathlib

/-
Verification of the runsc container lifecycle manager (runsc/container/container.go
and runsc/main.go), shallowly embedded in Lean 4.

The sandbox package is not part of the source under verification; its operations
(`IsRunning`, `Stop`, `Signal`, `Wait`, `Destroy`, `Create`) are modelled from the
specification of the Sandbox Handle (spec section 4.2) as oracles supplied to the
lifecycle verbs.  Filesystem effects are made explicit: the verbs take and return a
small filesystem state, and I/O failures are injected through Boolean flags.
-/

deriving instance DecidableEq for Except

namespace Runsc

/-- Container status (spec section 3.1): `Creating`, `Created`, `Running`, `Stopped`. -/
inductive Status where
  | Creating
  | Created
  | Running
  | Stopped
deriving DecidableEq, Repr

/-- Durable descriptor of the sandbox subprocess: its ID and PID (spec sections 3.1
and 4.2). In container.go this is the `*sandbox.Sandbox` reference stored in the
record; `none` models a nil reference / an absent `sandbox` JSON field. -/
structure Sandbox where
  id  : String
  pid : Nat
deriving DecidableEq, Repr

/-- The container record (container.go `Container`), restricted to the fields the
lifecycle logic consults.  `sandbox = none` models a nil `Sandbox` pointer. -/
structure Container where
  id        : String
  bundleDir : String
  root      : String
  owner     : String
  status    : Status
  sandbox   : Option Sandbox
deriving DecidableEq, Repr

/-- Error taxonomy of the lifecycle verbs (spec section 7). -/
inductive CtrError where
  | invalidID
  | invalidSpec
  | alreadyExists
  | notFound
  | readError
  | corrupt
  | persistFailure
  | sandboxFailure
  | pidFileFailure
deriving DecidableEq, Repr

/-- A character matched by `\w` in the Go regexp package: ASCII letters, digits
and underscore. -/
def isWordChar (ch : Char) : Bool :=
  ch.isAlphanum || ch = '_'

/-- A character matched by the class `[\w+-\.]` of container.go `validateID`.
In the source the class is written `[\w+-\.]`, in which `+-\.` is the RANGE from
'+' (0x2B) to '.' (0x2E) — so it also admits ',' (0x2C). -/
def idCharOK (ch : Char) : Bool :=
  isWordChar ch || ('+' ≤ ch && ch ≤ '.')

/-- container.go `validateID`: the id must match `^[\w+-\.]+$`, i.e. be nonempty
and consist only of characters of the class. -/
def validateID (id : String) : Except CtrError Unit :=
  if !id.data.isEmpty && id.data.all idCharOK then .ok () else .error .invalidID

/-- The character set named by the SPEC's regex `^[\w+\-.]+$`: word characters,
plus, hyphen, dot.  Written from the spec's words, for comparison with the
source's `idCharOK`. -/
def specIdChar (ch : Char) : Bool :=
  isWordChar ch || ch = '+' || ch = '-' || ch = '.'

/-- Character set of the amended claim C4: word characters or one of
'+', ',', '-', '.' (the code's class range '+'..'.' spelt out). -/
def amendedIdChar (ch : Char) : Bool :=
  isWordChar ch || ch = '+' || ch = ',' || ch = '-' || ch = '.'

example : validateID "abc-1.2+x_Y" = .ok () := by decide
example : validateID "," = .ok () := by decide
example : validateID "" = .error .invalidID := by decide
example : validateID "a b" = .error .invalidID := by decide

/-! ### Filesystem model

The verbs touch the filesystem through `os.Stat`, `ioutil.ReadFile`,
`ioutil.WriteFile`, `os.MkdirAll` and `os.RemoveAll`.  A filesystem state is a
set of directory paths plus a finite map from file paths to decoded contents. -/

/-- Decoded content of a file in the store.  `meta.json` either decodes to a
container record or is undecodable (`corrupt`); a pid file holds a decimal PID. -/
inductive FileData where
  | corrupt
  | record (c : Container)
  | pidData (n : Nat)
deriving DecidableEq, Repr

/-- Filesystem state: existing directories and files with their contents. -/
structure Fs where
  dirs  : List String
  files : List (String × FileData)
deriving DecidableEq, Repr

/-- container.go `exists`: `os.Stat` succeeds on a directory or a file. -/
def Fs.statExists (fs : Fs) (p : String) : Bool :=
  fs.dirs.contains p || fs.files.any (fun f => f.1 = p)

/-- `ioutil.ReadFile` + decode: the content stored for the path, if any. -/
def Fs.readFile (fs : Fs) (p : String) : Option FileData :=
  (fs.files.find? (fun f => f.1 = p)).map Prod.snd

/-- `ioutil.WriteFile`: create or replace the file at `p`. -/
def Fs.writeFile (fs : Fs) (p : String) (b : FileData) : Fs :=
  { dirs := fs.dirs, files := (p, b) :: fs.files.filter (fun f => f.1 ≠ p) }

/-- `os.MkdirAll`: ensure the directory exists (no-op when present). -/
def Fs.mkdirAll (fs : Fs) (p : String) : Fs :=
  if fs.dirs.contains p then fs else { dirs := p :: fs.dirs, files := fs.files }

/-- `q` lies at or below path `p` (it is `p` itself or has `p ++ "/"` as prefix). -/
def underPath (p q : String) : Bool :=
  q = p || (p ++ "/").data.isPrefixOf q.data

/-- `os.RemoveAll`: delete the path and everything below it; absence is not an
error. -/
def Fs.removeAll (fs : Fs) (p : String) : Fs :=
  { dirs := fs.dirs.filter (fun d => !underPath p d),
    files := fs.files.filter (fun f => !underPath p f.1) }

/-- `metadataFilename` of container.go. -/
def metadataFilename : String := "meta.json"

/-- `filepath.Join` for the two-component joins the lifecycle code performs. -/
def joinPath (a b : String) : String := a ++ "/" ++ b

/-- `filepath.Join(rootDir, id)`: the container's root directory. -/
def containerRootOf (rootDir id : String) : String := joinPath rootDir id

/-- `filepath.Join(rootDir, id, "meta.json")`: the metadata file path. -/
def metaPathOf (rootDir id : String) : String :=
  joinPath (containerRootOf rootDir id) metadataFilename

/-! ### Load (container.go `Load`) -/

/-- Outcome of `Load`: a record, an error, or a runtime fault (nil-pointer
dereference). -/
inductive LoadResult where
  | ok (c : Container)
  | err (e : CtrError)
  | crash
deriving DecidableEq, Repr

/-- The reconciliation step of container.go `Load` (lines 118-133): when the
decoded status is `Running` or `Created`, probe the sandbox.

Modelled from the spec: `sandbox.IsRunning` is not under the verified source;
per spec section 4.2 it probes "whether the sandbox subprocess is alive (e.g.,
signal-0 to its PID)", which the model renders as the liveness oracle `alive`
applied to the handle's PID.  When the decoded record has a nil sandbox
reference, reading the PID from the nil handle faults, rendered as `crash`. -/
def loadReconcile (alive : Nat → Bool) (c : Container) : LoadResult :=
  if c.status = .Running ∨ c.status = .Created then
    match c.sandbox with
    | none => .crash
    | some s =>
      if alive s.pid then .ok c
      else .ok { c with status := .Stopped, sandbox := none }
  else .ok c

/-- container.go `Load`: validate the id, require the container directory and
`meta.json` to exist, decode, then reconcile against sandbox liveness. -/
def Load (fs : Fs) (alive : Nat → Bool) (rootDir id : String) : LoadResult :=
  match validateID id with
  | .error e => .err e
  | .ok _ =>
    if !fs.statExists (containerRootOf rootDir id) then .err .notFound
    else if !fs.statExists (metaPathOf rootDir id) then .err .notFound
    else
      match fs.readFile (metaPathOf rootDir id) with
      | none => .err .readError
      | some .corrupt => .err .corrupt
      | some (.pidData _) => .err .corrupt
      | some (.record c) => loadReconcile alive c

/-! ### Sandbox Handle oracle (spec section 4.2)

The sandbox package is not under the verified source.  Its operations are
modelled from the spec as an oracle record: `stop` may fail (a stop error is
fatal to `destroy`), `signal` forwards a POSIX signal and returns the sandbox's
result, `wait` returns the container's init-process wait status. -/

structure SandboxOps where
  stop   : Sandbox → String → Except Unit Unit
  signal : Sandbox → String → Int → Except Unit Unit
  wait   : Option Sandbox → String → Nat

/-- `c.Sandbox.Stop(c.ID)` of container.go `Destroy`.

Modelled from the spec: `sandbox.Stop` is not under the verified source.  On a
present handle it is the oracle's `stop`.  On a cleared (nil) handle the spec
requires the call to succeed: section 4.4.8 titles `destroy` "Idempotent
teardown" and section 8 states "Second call to `destroy` succeeds (idempotent)",
which is only possible if stopping through the cleared reference is a
successful no-op. -/
def sandboxStop (ops : SandboxOps) (sb : Option Sandbox) (id : String) :
    Except Unit Unit :=
  match sb with
  | none => .ok ()
  | some s => ops.stop s id

/-- Result of `Destroy`: the returned error or success, the filesystem after the
directory removals, the mutated container, and whether the whole sandbox
subprocess was torn down. -/
structure DestroyOut where
  result : Except Unit Unit
  fs : Fs
  c : Container
  sandboxDestroyed : Bool

/-- container.go `Destroy` (lines 322-357): stop the container in the sandbox (a
stop error is returned), remove the container directory (twice, warnings only),
run poststop hooks best-effort (no effect on the outcome), destroy the whole
sandbox when this container is the sandbox's init container (warning only), then
clear the sandbox reference and set status `Stopped`. -/
def Destroy (ops : SandboxOps) (fs : Fs) (c : Container) : DestroyOut :=
  match sandboxStop ops c.sandbox c.id with
  | .error e => ⟨.error e, fs, c, false⟩
  | .ok _ =>
    let fs1 := (fs.removeAll c.root).removeAll c.root
    let sbDestroyed : Bool :=
      match c.sandbox with
      | some s => s.id = c.id
      | none => false
    ⟨.ok (), fs1, { c with sandbox := none, status := .Stopped }, sbDestroyed⟩

/-! ### Signal and Wait (container.go `Signal`, `Wait`) -/

/-- What a call to `Signal` did: succeeded, returned the sandbox's error, or
faulted on a nil sandbox reference. -/
inductive SignalResult where
  | ok
  | err
  | crash
deriving DecidableEq, Repr

/-- Outcome of `Signal`: the result and whether anything was forwarded to the
sandbox. -/
structure SignalOut where
  result : SignalResult
  forwarded : Bool
deriving DecidableEq, Repr

/-- container.go `Signal` (lines 293-300): on a `Stopped` container log a warning
and return success without forwarding; otherwise forward to the sandbox and
return its result.  Forwarding through a nil sandbox reference (possible only in
the transient `Creating` state) faults, modelled as `crash`. -/
def Signal (ops : SandboxOps) (c : Container) (sig : Int) : SignalOut :=
  if c.status = .Stopped then ⟨.ok, false⟩
  else
    match c.sandbox with
    | none => ⟨.crash, false⟩
    | some s =>
      match ops.signal s c.id sig with
      | .ok _ => ⟨.ok, true⟩
      | .error _ => ⟨.err, true⟩

/-- container.go `Wait` (lines 287-290): no status precondition; delegate to the
sandbox and return the container's wait status.

Modelled from the spec: `sandbox.Wait` is not under the verified source.  Spec
section 4.4.5 declares `wait` "Permitted in any status" and delegating to the
sandbox, so the oracle's `wait` is total in the handle — including the cleared
(`none`) reference a `Stopped` container carries. -/
def Wait (ops : SandboxOps) (c : Container) : Except CtrError Nat :=
  .ok (ops.wait c.sandbox c.id)

/-! ### save and Create (container.go `save`, `Create`) -/

/-- container.go `save` (lines 359-374) at filesystem granularity:
`os.MkdirAll(c.Root, 0711)` then `ioutil.WriteFile(metaFile, meta, 0640)`.
The `mkdirOk` / `writeOk` flags inject I/O failure of the two calls. -/
def save (fs : Fs) (mkdirOk writeOk : Bool) (c : Container) :
    Except CtrError Unit × Fs :=
  if !mkdirOk then (.error .persistFailure, fs)
  else
    let fs1 := fs.mkdirAll c.root
    if !writeOk then (.error .persistFailure, fs1)
    else (.ok (), fs1.writeFile (joinPath c.root metadataFilename) (.record c))

/-- Inputs of one `Create` invocation that come from outside the lifecycle file:
the configured root directory, the spec-validation verdict, the result of
`sandbox.Create` (spec section 4.2: on success the returned handle satisfies
`sandbox.id == containerID`), the injected I/O verdicts for `save` and for the
pid-file write, and the owner/bundle strings. -/
structure CreateEnv where
  rootDir : String
  specOK : Bool
  sandboxNew : Except Unit Sandbox
  mkdirOk : Bool
  writeOk : Bool
  pidWriteOk : Bool
  owner : String
  bundleDir : String

/-- Outcome of `Create`: the returned value, the final filesystem, and whether
the sandbox subprocess launched by this invocation is still alive when the verb
returns (`false` also when no sandbox was ever launched). -/
structure CreateOut where
  result : Except CtrError Container
  fs : Fs
  sandboxAlive : Bool
deriving DecidableEq, Repr

/-- container.go `Create` (lines 152-212): validate id and spec, reject an
existing container root, build the record with status `Creating`, launch the
sandbox (on failure: `c.Destroy()`), attach the handle and set `Created`, `save`
(on failure: `c.Destroy()`), and finally write the pid file if requested — on
whose failure the source calls `s.Destroy()` (the sandbox handle's destroy),
killing the subprocess but leaving the on-disk record in place. -/
def Create (ops : SandboxOps) (env : CreateEnv) (fs : Fs) (id : String)
    (pidFile : Option String) : CreateOut :=
  match validateID id with
  | .error e => ⟨.error e, fs, false⟩
  | .ok _ =>
    if !env.specOK then ⟨.error .invalidSpec, fs, false⟩
    else if fs.statExists (containerRootOf env.rootDir id) then
      ⟨.error .alreadyExists, fs, false⟩
    else
      let c0 : Container :=
        { id := id, bundleDir := env.bundleDir,
          root := containerRootOf env.rootDir id,
          owner := env.owner, status := .Creating, sandbox := none }
      match env.sandboxNew with
      | .error _ =>
        let d := Destroy ops fs c0
        ⟨.error .sandboxFailure, d.fs, false⟩
      | .ok s =>
        let c1 := { c0 with sandbox := some s, status := .Created }
        match save fs env.mkdirOk env.writeOk c1 with
        | (.error e, fs1) =>
          let d := Destroy ops fs1 c1
          ⟨.error e, d.fs, !d.sandboxDestroyed⟩
        | (.ok _, fs1) =>
          match pidFile with
          | none => ⟨.ok c1, fs1, true⟩
          | some pf =>
            if env.pidWriteOk then ⟨.ok c1, fs1.writeFile pf (.pidData s.pid), true⟩
            else ⟨.error .pidFileFailure, fs1, false⟩

/-! ### List (container.go `List`) -/

/-- One entry of the root directory as returned by `ioutil.ReadDir`: a name and
whether the entry is a directory. -/
structure DirEnt where
  name  : String
  isDir : Bool
deriving DecidableEq, Repr

/-- Byte-wise comparison of names, as Go's `sort.Strings` orders them. -/
def charsLe : List Char → List Char → Bool
  | [], _ => true
  | _ :: _, [] => false
  | a :: as, b :: bs =>
    if a.toNat < b.toNat then true
    else if b.toNat < a.toNat then false
    else charsLe as bs

/-- `a` sorts no later than `b` in Go's string order. -/
def nameLe (a b : String) : Bool := charsLe a.data b.data

/-- Insertion step of sorting directory entries by name (`ioutil.ReadDir`
returns entries sorted by filename). -/
def insertByName (e : DirEnt) : List DirEnt → List DirEnt
  | [] => [e]
  | x :: xs => if nameLe e.name x.name then e :: x :: xs else x :: insertByName e xs

/-- Directory entries sorted by filename, as `ioutil.ReadDir` returns them. -/
def sortByName : List DirEnt → List DirEnt
  | [] => []
  | x :: xs => insertByName x (sortByName xs)

/-- container.go `List` (lines 138-150): `ioutil.ReadDir` on the root directory,
then append the name of EVERY entry — with no check that the entry is a
directory. -/
def listContainers (entries : List DirEnt) : List String :=
  (sortByName entries).map DirEnt.name

/-- What the claim says `List` returns: the names of the immediate
subdirectories only.  Written from the spec's words, for comparison with the
source's `listContainers`. -/
def specListSubdirs (entries : List DirEnt) : List String :=
  (sortByName (entries.filter (fun e => e.isDir))).map DirEnt.name

/-! ### save at micro-step granularity (for atomicity) -/

/-- Byte sequences, for the raw content of `meta.json`. -/
abbrev Bytes := List Nat

/-- One filesystem operation performed by `save`. -/
inductive FileOp where
  | mkdirAll (path : String)
  | openTrunc (path : String)
  | writeBytes (path : String) (b : Bytes)
  | rename (src dst : String)
deriving DecidableEq, Repr

/-- The operations container.go `save` performs, in order: `os.MkdirAll` on the
container root, then `ioutil.WriteFile` on `meta.json`, which opens the file
with `O_WRONLY|O_CREATE|O_TRUNC` (truncating it) and then writes the marshalled
bytes.  There is no temporary file and no rename. -/
def saveOps (root : String) (meta : Bytes) : List FileOp :=
  [.mkdirAll root,
   .openTrunc (joinPath root metadataFilename),
   .writeBytes (joinPath root metadataFilename) meta]

/-- Whether a sequence of operations contains a rename (the write-temp-then-
rename pattern necessarily does). -/
def usesRename (ops : List FileOp) : Bool :=
  ops.any (fun op =>
    match op with
    | .rename _ _ => true
    | _ => false)

/-- The contents `meta.json` can be observed to hold if the process crashes
during `save`, starting from prior content `old` (`none` = file absent):
unchanged before and after `mkdirAll`; empty right after the truncating open;
any prefix of the new bytes while the write is in flight; the full new bytes
once the write completed. -/
def saveCrashContents (old : Option Bytes) (meta : Bytes) : List (Option Bytes) :=
  old :: old :: (List.range (meta.length + 1)).map (fun k => some (meta.take k))

/-- The atomic-replacement property the claim asserts of `save`: every
crash-observable content is the prior record or the new record, and the
operation sequence uses write-temp-then-rename. -/
def saveAtomicClaim (old : Option Bytes) (meta : Bytes) (root : String) : Prop :=
  (∀ b ∈ saveCrashContents old meta, b = old ∨ b = some meta) ∧
  usesRename (saveOps root meta) = true

/-! ### Process exit code (runsc/main.go) -/

/-- `w & 0x7f`, the low seven bits of a wait status word. -/
def wsLow (w : Nat) : Nat := w % 128

/-- Go `syscall.WaitStatus.Signaled` on linux: the low bits are neither the
stopped marker 0x7f nor the exited marker 0. -/
def wsSignaled (w : Nat) : Bool :=
  !(wsLow w = 127) && !(wsLow w = 0)

/-- Go `syscall.WaitStatus.Signal` on linux: the signal number, or -1 when not
signaled. -/
def wsSignal (w : Nat) : Int :=
  if wsLow w = 127 ∨ wsLow w = 0 then -1 else wsLow w

/-- Go `syscall.WaitStatus.ExitStatus` on linux: the exit byte, or -1 when the
process did not exit normally. -/
def wsExitStatus (w : Nat) : Int :=
  if !(wsLow w = 0) then -1 else (w / 256) % 256

/-- main.go (lines 187-201): when the subcommand succeeded, exit with
`128 + signal` if the wait status is signaled, else with its exit status; when
the subcommand failed, exit 128. -/
def mainExitCode (verbOk : Bool) (w : Nat) : Int :=
  if verbOk then
    if wsSignaled w then 128 + wsSignal w
    else wsExitStatus w
  else 128

/-! ### Concrete fixtures used by the witnesses -/

/-- A sandbox oracle whose operations all succeed. -/
def opsW : SandboxOps :=
  { stop := fun _ _ => .ok (), signal := fun _ _ _ => .ok (), wait := fun _ _ => 0 }

/-- A running container record holding a sandbox handle. -/
def recW : Container :=
  { id := "c1", bundleDir := "b", root := "root/c1", owner := "u",
    status := .Running, sandbox := some { id := "c1", pid := 7 } }

/-- A filesystem holding the metadata of `recW`. -/
def fsW : Fs :=
  { dirs := ["root", "root/c1"], files := [(metaPathOf "root" "c1", .record recW)] }

/-- `recW` with a nil sandbox reference, and a filesystem holding its metadata. -/
def recNil : Container := { recW with sandbox := none }

/-- Filesystem holding the metadata of `recNil`. -/
def fsNil : Fs :=
  { dirs := ["root", "root/c1"], files := [(metaPathOf "root" "c1", .record recNil)] }

/-- A `Create` environment in which everything succeeds except the pid-file
write. -/
def envW : CreateEnv :=
  { rootDir := "root", specOK := true, sandboxNew := .ok { id := "c1", pid := 7 },
    mkdirOk := true, writeOk := true, pidWriteOk := false,
    owner := "u", bundleDir := "b" }

/-! ### Helper lemmas -/

/-- The class range `+-\.` of the source's regex, spelt out: it holds exactly
the four characters '+', ',', '-', '.'. -/
theorem char_between_plus_dot (ch : Char) :
    ('+' ≤ ch && ch ≤ '.') = (ch = '+' || ch = ',' || ch = '-' || ch = '.') := by
  have hiff : ('+' ≤ ch ∧ ch ≤ '.') ↔ (ch = '+' ∨ ch = ',' ∨ ch = '-' ∨ ch = '.') := by
    constructor
    · rintro ⟨h1, h2⟩
      have h1n : (43 : Nat) ≤ ch.val.toNat := h1
      have h2n : ch.val.toNat ≤ 46 := h2
      have hd : ch.val.toNat = 43 ∨ ch.val.toNat = 44 ∨ ch.val.toNat = 45 ∨
          ch.val.toNat = 46 := by omega
      rcases hd with h | h | h | h
      · exact Or.inl (Char.ext (UInt32.ext h))
      · exact Or.inr (Or.inl (Char.ext (UInt32.ext h)))
      · exact Or.inr (Or.inr (Or.inl (Char.ext (UInt32.ext h))))
      · exact Or.inr (Or.inr (Or.inr (Char.ext (UInt32.ext h))))
    · rintro (rfl | rfl | rfl | rfl) <;> exact ⟨by decide, by decide⟩
  have hL : ('+' ≤ ch && ch ≤ '.') = decide ('+' ≤ ch ∧ ch ≤ '.') := by
    simp
  have hR : (ch = '+' || ch = ',' || ch = '-' || ch = '.') =
      decide (ch = '+' ∨ ch = ',' ∨ ch = '-' ∨ ch = '.') := by
    simp [or_assoc, Bool.or_assoc]
  rw [hL, hR]
  exact decide_eq_decide.mpr hiff

/-- The source's id character class equals the amended claim's character set. -/
theorem idCharOK_eq_amendedIdChar (ch : Char) : idCharOK ch = amendedIdChar ch := by
  unfold idCharOK amendedIdChar
  rw [char_between_plus_dot]
  cases isWordChar ch <;> simp [Bool.or_assoc]

/-- `validateID` fails exactly when the regex condition is false. -/
theorem validateID_base (id : String) :
    validateID id = .error .invalidID ↔
      (!id.data.isEmpty && id.data.all idCharOK) = false := by
  unfold validateID
  split
  next hc => simp [hc]
  next hc =>
    simp at hc
    simp
    exact hc

/-- A `Destroy` that returned success left the container `Stopped` with the
sandbox reference cleared. -/
theorem destroy_c_of_ok (ops : SandboxOps) (fs : Fs) (c : Container)
    (h : (Destroy ops fs c).result = .ok ()) :
    (Destroy ops fs c).c = { c with sandbox := none, status := .Stopped } := by
  unfold Destroy at h ⊢
  cases hstop : sandboxStop ops c.sandbox c.id with
  | error e => rw [hstop] at h; simp at h
  | ok u => rfl

/-- `Destroy` of a container whose sandbox reference is cleared succeeds: the
stop through the cleared handle is a no-op. -/
theorem destroy_sandbox_none (ops : SandboxOps) (fs : Fs) (c : Container)
    (h : c.sandbox = none) :
    (Destroy ops fs c).result = .ok () ∧
    (Destroy ops fs c).c = { c with sandbox := none, status := .Stopped } := by
  unfold Destroy
  simp [sandboxStop, h]

/-! ### Claim theorems -/

/-- C1: on `load` of a record with stored status `Created` or `Running` and a
sandbox reference, a dead sandbox process coerces the returned record to status
`Stopped` with the sandbox reference cleared, while a live sandbox leaves the
stored status and sandbox reference unchanged. -/
theorem load_reconciles_liveness
    (fs : Fs) (alive : Nat → Bool) (rootDir id : String) (c : Container) (s : Sandbox)
    (hid : validateID id = .ok ())
    (hdir : fs.statExists (containerRootOf rootDir id) = true)
    (hmeta : fs.statExists (metaPathOf rootDir id) = true)
    (hread : fs.readFile (metaPathOf rootDir id) = some (.record c))
    (hst : c.status = .Created ∨ c.status = .Running)
    (hsb : c.sandbox = some s) :
    (alive s.pid = false →
      Load fs alive rootDir id = .ok { c with status := .Stopped, sandbox := none }) ∧
    (alive s.pid = true → Load fs alive rootDir id = .ok c) := by
  have hrec : Load fs alive rootDir id = loadReconcile alive c := by
    simp [Load, hid, hdir, hmeta, hread]
  constructor <;> intro ha <;> rw [hrec] <;> unfold loadReconcile <;>
    rcases hst with h | h <;> simp [h, hsb, ha]

/-- C1 witness: loading the stored `Running` record `recW` under a liveness
oracle that reports every PID dead yields the `Stopped`, sandbox-cleared
record. -/
theorem load_reconciles_liveness_witness :
    Load fsW (fun _ => false) "root" "c1" =
      .ok { recW with status := .Stopped, sandbox := none } :=
  (load_reconciles_liveness fsW (fun _ => false) "root" "c1" recW { id := "c1", pid := 7 }
    (by decide) (by decide) (by decide) (by decide) (Or.inr rfl) rfl).1 rfl

/-- C10: on `load` of a record that decodes to status `Created` or `Running`
with an absent (nil) sandbox reference, the unguarded liveness probe
dereferences the nil handle and the process crashes instead of returning a
`Corrupt` error. -/
theorem load_nil_sandbox_crashes
    (fs : Fs) (alive : Nat → Bool) (rootDir id : String) (c : Container)
    (hid : validateID id = .ok ())
    (hdir : fs.statExists (containerRootOf rootDir id) = true)
    (hmeta : fs.statExists (metaPathOf rootDir id) = true)
    (hread : fs.readFile (metaPathOf rootDir id) = some (.record c))
    (hst : c.status = .Created ∨ c.status = .Running)
    (hsb : c.sandbox = none) :
    Load fs alive rootDir id = .crash := by
  have hrec : Load fs alive rootDir id = loadReconcile alive c := by
    simp [Load, hid, hdir, hmeta, hread]
  rw [hrec]
  unfold loadReconcile
  rcases hst with h | h <;> simp [h, hsb]

/-- C10 witness: loading a stored `Running` record with a null sandbox field
crashes. -/
theorem load_nil_sandbox_crashes_witness :
    Load fsNil (fun _ => true) "root" "c1" = .crash :=
  load_nil_sandbox_crashes fsNil (fun _ => true) "root" "c1" recNil
    (by decide) (by decide) (by decide) (by decide) (Or.inr rfl) rfl

/-- C2: at the failing input — sandbox creation and `save` succeed, the pid-file
write fails — `Create` returns the error with the sandbox subprocess torn down
but with the container's on-disk directory and `meta.json` still present: the
source calls `s.Destroy()` (sandbox only) instead of the container destruction
path, contradicting its own comment "Any errors after this point must destroy
the container".  For contrast, the `save`-failure path does remove the on-disk
record via `c.Destroy()`. -/
theorem create_pid_file_failure_leaks_record :
    (Create opsW envW { dirs := [], files := [] } "c1" (some "pidfile")).result =
      .error .pidFileFailure ∧
    (Create opsW envW { dirs := [], files := [] } "c1" (some "pidfile")).sandboxAlive =
      false ∧
    (Create opsW envW { dirs := [], files := [] } "c1" (some "pidfile")).fs.statExists
      (metaPathOf "root" "c1") = true ∧
    (Create opsW { envW with pidWriteOk := true, writeOk := false }
        { dirs := [], files := [] } "c1" (some "pidfile")).fs.statExists
      (metaPathOf "root" "c1") = false ∧
    (Create opsW { envW with pidWriteOk := true, writeOk := false }
        { dirs := [], files := [] } "c1" (some "pidfile")).sandboxAlive = false := by
  refine ⟨by decide, by decide, by decide, by decide, by decide⟩

/-- C3 counterexample: `save` of the one-byte record 55 over the prior one-byte
record 52 is not an atomic replacement: the crash-observable empty content is
neither the prior nor the new record, and the operation sequence contains no
rename. -/
theorem save_atomic_claim_counterexample :
    ¬ saveAtomicClaim (some [52]) [55] "root/c1" := by
  intro h
  exact absurd (h.1 (some []) (by decide)) (by decide)

/-- C3 amended: `save` creates the directory and then rewrites `meta.json` in
place — a truncating open followed by a write, with no temporary file and no
rename — so an invocation that crashes between the truncation and the write
leaves an empty `meta.json` that is neither the prior durable record nor the new
one (for nonempty records), while a crash-free `save` leaves the new record. -/
theorem save_overwrites_in_place (old meta : Bytes) (root : String)
    (hold : old ≠ []) (hmeta : meta ≠ []) :
    usesRename (saveOps root meta) = false ∧
    some ([] : Bytes) ∈ saveCrashContents (some old) meta ∧
    (some ([] : Bytes) : Option Bytes) ≠ some old ∧
    (some ([] : Bytes) : Option Bytes) ≠ some meta ∧
    some meta ∈ saveCrashContents (some old) meta := by
  refine ⟨rfl, ?_, by simp [hold.symm], by simp [hmeta.symm], ?_⟩
  · unfold saveCrashContents
    refine List.mem_cons_of_mem _ (List.mem_cons_of_mem _ ?_)
    exact List.mem_map.mpr ⟨0, by simp, by simp⟩
  · unfold saveCrashContents
    refine List.mem_cons_of_mem _ (List.mem_cons_of_mem _ ?_)
    exact List.mem_map.mpr ⟨meta.length, by simp, by simp⟩

/-- C3 witness: the amended statement at the concrete one-byte records. -/
theorem save_overwrites_in_place_witness :
    usesRename (saveOps "root/c1" [55]) = false ∧
    some ([] : Bytes) ∈ saveCrashContents (some [52]) [55] :=
  ⟨(save_overwrites_in_place [52] [55] "root/c1" (by decide) (by decide)).1,
   (save_overwrites_in_place [52] [55] "root/c1" (by decide) (by decide)).2.1⟩

/-- C4 counterexample: the claim "an id is rejected iff it contains a character
outside `\w+\-.`" fails at the concrete ids "," (accepted by the code although
',' is outside the spec's set) and "" (rejected by the code although it contains
no character at all). -/
theorem validateID_spec_regex_counterexample :
    ¬ ((validateID "," = .error .invalidID) ↔
        (",".data.any (fun ch => !specIdChar ch) = true)) ∧
    ¬ ((validateID "" = .error .invalidID) ↔
        ("".data.any (fun ch => !specIdChar ch) = true)) := by
  decide

/-- C4 amended: an id is rejected with `InvalidID` iff it is empty or contains a
character outside word characters and '+', ',', '-', '.' (the code's class
`[\w+-\.]` is the range '+'..'.', which also admits the comma); on a rejected
id, `load` and `create` return `InvalidID` without touching the filesystem. -/
theorem validateID_rejects_iff (id : String) :
    (validateID id = .error .invalidID ↔
      (id.data = [] ∨ id.data.any (fun ch => !amendedIdChar ch) = true)) ∧
    (validateID id = .error .invalidID →
      (∀ fs alive rootDir, Load fs alive rootDir id = .err .invalidID) ∧
      (∀ ops env fs pf, Create ops env fs id pf = ⟨.error .invalidID, fs, false⟩)) := by
  constructor
  · rw [validateID_base]
    rw [Bool.and_eq_false_iff]
    simp [List.isEmpty_iff, List.all_eq_not_any_not, idCharOK_eq_amendedIdChar]
  · intro h
    refine ⟨fun fs alive rootDir => ?_, fun ops env fs pf => ?_⟩
    · simp [Load, h]
    · simp [Create, h]

/-- C4 witness: the id "bad id" (a space is outside the class) is rejected, and
`Load` and `Create` reject it on an empty filesystem, returning it unchanged. -/
theorem validateID_rejects_iff_witness :
    validateID "bad id" = .error .invalidID ∧
    Load { dirs := [], files := [] } (fun _ => true) "root" "bad id" =
      .err .invalidID ∧
    Create opsW envW { dirs := [], files := [] } "bad id" none =
      ⟨.error .invalidID, { dirs := [], files := [] }, false⟩ := by
  have h1 : validateID "bad id" = .error .invalidID :=
    (validateID_rejects_iff "bad id").1.mpr (Or.inr (by decide))
  exact ⟨h1, ((validateID_rejects_iff "bad id").2 h1).1 _ _ _,
    ((validateID_rejects_iff "bad id").2 h1).2 _ _ _ _⟩

/-- C5: `destroy` is idempotent — after a `destroy` that returned success
(leaving the container `Stopped` with the sandbox reference cleared), a second
`destroy` also returns success, and leaves the container unchanged. -/
theorem destroy_idempotent (ops : SandboxOps) (fs : Fs) (c : Container)
    (h : (Destroy ops fs c).result = .ok ()) :
    (Destroy ops (Destroy ops fs c).fs (Destroy ops fs c).c).result = .ok () ∧
    (Destroy ops (Destroy ops fs c).fs (Destroy ops fs c).c).c = (Destroy ops fs c).c := by
  have hc := destroy_c_of_ok ops fs c h
  have hnone : (Destroy ops fs c).c.sandbox = none := by rw [hc]
  obtain ⟨h1, h2⟩ :=
    destroy_sandbox_none ops (Destroy ops fs c).fs (Destroy ops fs c).c hnone
  refine ⟨h1, ?_⟩
  rw [h2, hc]

/-- C5 witness: destroying `recW` twice; the second call succeeds. -/
theorem destroy_idempotent_witness :
    (Destroy opsW (Destroy opsW fsW recW).fs (Destroy opsW fsW recW).c).result =
      .ok () :=
  (destroy_idempotent opsW fsW recW rfl).1

/-- C6: `signal` on a `Stopped` container returns success without forwarding
anything to the sandbox; on a container in any other status (with its sandbox
reference present) it forwards the signal and returns the sandbox's result. -/
theorem signal_stopped_noop_otherwise_forwards
    (ops : SandboxOps) (c : Container) (sig : Int) :
    (c.status = .Stopped → Signal ops c sig = ⟨.ok, false⟩) ∧
    (c.status ≠ .Stopped → ∀ s, c.sandbox = some s →
      Signal ops c sig =
        ⟨match ops.signal s c.id sig with
          | .ok _ => .ok
          | .error _ => .err, true⟩) := by
  constructor
  · intro h
    simp [Signal, h]
  · intro h s hs
    simp [Signal, h, hs]
    cases ops.signal s c.id sig <;> rfl

/-- C6 witness: signalling a `Stopped` container is a non-forwarding success;
signalling the `Running` container `recW` forwards and returns the sandbox's
success. -/
theorem signal_witness :
    Signal opsW { recW with status := .Stopped, sandbox := none } 9 = ⟨.ok, false⟩ ∧
    Signal opsW recW 9 = ⟨.ok, true⟩ := by
  constructor
  · exact (signal_stopped_noop_otherwise_forwards opsW
      { recW with status := .Stopped, sandbox := none } 9).1 rfl
  · exact (signal_stopped_noop_otherwise_forwards opsW recW 9).2
      (by decide) { id := "c1", pid := 7 } rfl

/-- C7: `wait` has no status precondition — for every container, in every
status, including `Stopped` with the sandbox reference cleared, it delegates to
the sandbox and returns the container's init-process wait status. -/
theorem wait_permitted_any_status (ops : SandboxOps) (c : Container) :
    Wait ops c = .ok (ops.wait c.sandbox c.id) := rfl

/-- C9: the process exit code is `128 + signal` when the verb succeeded and the
wait status is signal-terminated, the contained process's exit status when the
verb succeeded otherwise, and 128 when the runtime failed to execute the verb. -/
theorem main_exit_code_cases (verbOk : Bool) (w : Nat) :
    (verbOk = true → wsSignaled w = true → mainExitCode verbOk w = 128 + wsSignal w) ∧
    (verbOk = true → wsSignaled w = false → mainExitCode verbOk w = wsExitStatus w) ∧
    (verbOk = false → mainExitCode verbOk w = 128) := by
  refine ⟨fun h1 h2 => ?_, fun h1 h2 => ?_, fun h1 => ?_⟩ <;>
    simp [mainExitCode, h1, *]

/-- Membership is preserved by the insertion step of the name sort. -/
theorem mem_insertByName {a e : DirEnt} {l : List DirEnt} :
    a ∈ insertByName e l ↔ a = e ∨ a ∈ l := by
  induction l with
  | nil => simp [insertByName]
  | cons x xs ih =>
    unfold insertByName
    split
    · simp
    · simp [ih]
      tauto

/-- Sorting directory entries by name preserves membership. -/
theorem mem_sortByName {a : DirEnt} {l : List DirEnt} :
    a ∈ sortByName l ↔ a ∈ l := by
  induction l with
  | nil => simp [sortByName]
  | cons x xs ih => simp [sortByName, mem_insertByName, ih]

/-- C8 counterexample: on a root directory holding the subdirectory "c1" and the
regular file "stray.txt", `List` returns both names — not the subdirectory names
only — so its output differs from the spec-side enumeration of subdirectories. -/
theorem list_returns_regular_file_names :
    listContainers [{ name := "stray.txt", isDir := false }, { name := "c1", isDir := true }] =
      ["c1", "stray.txt"] ∧
    specListSubdirs [{ name := "stray.txt", isDir := false }, { name := "c1", isDir := true }] =
      ["c1"] ∧
    listContainers [{ name := "stray.txt", isDir := false }, { name := "c1", isDir := true }] ≠
      specListSubdirs [{ name := "stray.txt", isDir := false }, { name := "c1", isDir := true }] := by
  refine ⟨by decide, by decide, by decide⟩

/-- C8 amended: `list` returns exactly the names of ALL immediate entries of the
root directory — subdirectories and regular files alike — in name order, without
validating that any of them contains a record. -/
theorem list_returns_all_entry_names (entries : List DirEnt) (n : String) :
    n ∈ listContainers entries ↔ ∃ e ∈ entries, e.name = n := by
  unfold listContainers
  rw [List.mem_map]
  constructor
  · rintro ⟨e, he, rfl⟩
    exact ⟨e, mem_sortByName.mp he, rfl⟩
  · rintro ⟨e, he, rfl⟩
    exact ⟨e, mem_sortByName.mpr he, rfl⟩

/-- C8 witness: the regular file name "stray.txt" is in the returned list. -/
theorem list_returns_all_entry_names_witness :
    "stray.txt" ∈ listContainers
      [{ name := "stray.txt", isDir := false }, { name := "c1", isDir := true }] :=
  (list_returns_all_entry_names
    [{ name := "stray.txt", isDir := false }, { name := "c1", isDir := true }]
    "stray.txt").mpr ⟨{ name := "stray.txt", isDir := false }, by simp, rfl⟩

/-- C9 witness: killed by signal 9 gives exit code 137; normal exit 7 gives 7;
verb failure gives 128. -/
theorem main_exit_code_witness :
    mainExitCode true 9 = 137 ∧ mainExitCode true (7 * 256) = 7 ∧
    mainExitCode false 5 = 128 := by
  refine ⟨?_, ?_, (main_exit_code_cases false 5).2.2 rfl⟩
  · have := (main_exit_code_cases true 9).1 rfl (by decide)
    simpa using this
  · have := (main_exit_code_cases true (7 * 256)).2.1 rfl (by decide)
    simpa using this

end Runsc
